import Mathlib

/-!
Verification of the report/stats aggregation pipeline of the
spotify-ontario-analysis repository (`src/generate_report.py`).

The pipeline is embedded shallowly:

* a pandas `DataFrame` becomes a `Table`: a list of column names plus a
  list of rows, each row an association list from column names to cells;
* a cell is a rational number, a string, or a null (pandas `NaN`/`NaT`);
* `pd.to_datetime(col, errors="coerce").dt.year` is abstracted by a
  parameter `py : Cell → Option ℤ` (the year parser); unparsable cells
  yield `none`, which the embedding stores as a null cell;
* a plotly figure rendered by `fig.to_html(...)` becomes an `Html`
  value: the chart payload together with the id of the enclosing div
  (plotly draws a fresh random UUID for that id on every call when the
  caller does not supply one);
* floating point arithmetic is idealised as exact rational arithmetic;
  a Pearson correlation entry is kept symbolically as a pair
  (numerator, radicand) whose real value is `num / Real.sqrt radicand`,
  and pandas' NaN results are represented by `none`.

Every operation of `ReportGenerator` used by the claims is translated
directly from the source.
-/

namespace SpotifyOntario

/-- Cell of a data table: a numeric value, a string value, or a null
(pandas `NaN`/`NaT`/`None`). -/
inductive Cell where
  | num (q : ℚ)
  | str (s : String)
  | null
deriving DecidableEq, Repr

/-- Whether the cell is the null marker. -/
def Cell.isNull : Cell → Bool
  | Cell.null => true
  | _ => false

/-- Numeric view of a cell, `none` for strings and nulls (pandas skips
these in numeric aggregations). -/
def Cell.toNum : Cell → Option ℚ
  | Cell.num q => some q
  | _ => none

/-- A table row: an association list from column names to cells.  A later
prepended binding shadows an earlier one, which models overwriting a
column of a DataFrame row. -/
abbrev Row := List (String × Cell)

/-- A pandas DataFrame: the column index plus the rows. -/
structure Table where
  cols : List String
  rows : List Row
deriving DecidableEq, Repr

/-- Value of column `c` in row `r` (null when the row has no such key). -/
def getCell (r : Row) (c : String) : Cell :=
  match r.find? (fun p => p.1 == c) with
  | some p => p.2
  | none => Cell.null

/-- Overwrite column `c` of row `r` with value `v` (shadowing binding). -/
def setCell (r : Row) (c : String) (v : Cell) : Row := (c, v) :: r

/-- Column `c` of the table as a list of cells, one per row. -/
def Table.col (t : Table) (c : String) : List Cell :=
  t.rows.map (fun r => getCell r c)

/-! ### Dataset loader (`ReportGenerator.load_data`) -/

/-- A file of the processed-data directory: name and creation time. -/
structure FileInfo where
  name : String
  ctime : ℤ
deriving DecidableEq, Repr

/-- Whether a file name matches the glob `stem*ext`
(e.g. `clean_tracks_*.parquet`): the name starts with `stem` and ends
with `ext`, expressed over the character lists. -/
def globMatch (stem ext : String) (f : FileInfo) : Bool :=
  (f.name.data.take stem.data.length == stem.data) &&
  (f.name.data.drop (f.name.data.length - ext.data.length) == ext.data)

/-- Python's `max(files, key=os.path.getctime)`: the first file of
maximal creation time, `none` on the empty list. -/
def selectLatest : List FileInfo → Option FileInfo
  | [] => none
  | f :: fs => some (fs.foldl (fun best g => if best.ctime < g.ctime then g else best) f)

/-- The ordered candidate patterns for the tracks dataset:
`clean_tracks_*.parquet` first, then `clean_tracks_*.csv`. -/
def tracksPatterns : List (String × String) :=
  [("clean_tracks_", ".parquet"), ("clean_tracks_", ".csv")]

/-- The ordered candidate patterns for the playlists dataset. -/
def playlistsPatterns : List (String × String) :=
  [("clean_playlists_", ".parquet"), ("clean_playlists_", ".csv")]

/-- The loop of `load_data`: for each pattern in order, glob the files;
on the first pattern with matches pick the most recently created match
and stop. -/
def firstPatternHit (pats : List (String × String)) (files : List FileInfo) :
    Option FileInfo :=
  match pats with
  | [] => none
  | p :: rest =>
    match selectLatest (files.filter (globMatch p.1 p.2)) with
    | some f => some f
    | none => firstPatternHit rest files

/-- The whole of `load_data`: tracks are mandatory (a missing tracks
table raises `FileNotFoundError`, re-raised to the caller), playlists
are optional. -/
def loadData (files : List FileInfo) : Except String (FileInfo × Option FileInfo) :=
  match firstPatternHit tracksPatterns files with
  | some f => Except.ok (f, firstPatternHit playlistsPatterns files)
  | none => Except.error "No processed tracks data found"

/-! ### Aggregation helpers -/

/-- The sublist of `fs` whose names are columns of `t` (the
`available_features` pattern of the source). -/
def availIn (fs : List String) (t : Table) : List String :=
  fs.filter (fun f => decide (f ∈ t.cols))

/-- pandas `Series.nunique`: the number of distinct non-null values. -/
def nunique (cells : List Cell) : ℕ :=
  ((cells.filter (fun c => !c.isNull)).dedup).length

/-- pandas `Series.min` with NaNs skipped: `none` exactly on the empty
list (where pandas yields NaN, making the source's `int(...)` raise). -/
def listMinZ : List ℤ → Option ℤ
  | [] => none
  | x :: xs =>
    match listMinZ xs with
    | none => some x
    | some m => some (min x m)

/-- pandas `Series.max` with NaNs skipped, `none` on the empty list. -/
def listMaxZ : List ℤ → Option ℤ
  | [] => none
  | x :: xs =>
    match listMaxZ xs with
    | none => some x
    | some m => some (max x m)

/-- pandas `Series.mean` with NaNs already removed from the input:
NaN (`none`) on the empty list, otherwise the arithmetic mean. -/
def meanOpt (l : List ℚ) : Option ℚ :=
  if l = [] then none else some (l.sum / (l.length : ℚ))

/-- One cell of the derived `release_year` column:
`pd.to_datetime(cell, errors="coerce").dt.year` — the parsed year as a
number, or null when the date is unparsable. -/
def parseCell (py : Cell → Option ℤ) (c : Cell) : Cell :=
  match py c with
  | some y => Cell.num (y : ℚ)
  | none => Cell.null

/-- The years parsed from the `release_date` column, unparsable entries
dropped. -/
def parsedYears (py : Cell → Option ℤ) (t : Table) : List ℤ :=
  (t.col "release_date").filterMap py

/-- The side effect of `create_summary_stats`:
`self.tracks_df["release_year"] = pd.to_datetime(self.tracks_df["release_date"], errors="coerce").dt.year`. -/
def addReleaseYear (py : Cell → Option ℤ) (t : Table) : Table :=
  { cols := if "release_year" ∈ t.cols then t.cols else t.cols ++ ["release_year"]
    rows := t.rows.map (fun r =>
      setCell r "release_year" (parseCell py (getCell r "release_date"))) }

/-! ### `create_summary_stats` -/

/-- The summary-statistics bundle.  `year_range = none` models the key
being absent from the stats dict (no `release_date` column);
`year_range = some none` models the key set to Python `None` (the
`except` branch, reached exactly when no date parses). -/
structure SummaryStats where
  total_tracks : ℕ
  total_playlists : ℕ
  unique_artists : ℕ
  unique_albums : ℕ
  year_range : Option (Option (ℤ × ℤ))
deriving DecidableEq, Repr

/-- `ReportGenerator.create_summary_stats`.  Besides the returned stats
it mutates the shared tracks table (adds the `release_year` column)
whenever `release_date` is present; the mutated table is the second
component.  `pl` is the playlists table's row count when that table
was loaded. -/
def createSummaryStats (py : Cell → Option ℤ) (t : Table) (pl : Option ℕ) :
    SummaryStats × Table :=
  let stats0 : SummaryStats :=
    { total_tracks := t.rows.length
      total_playlists := pl.getD 0
      unique_artists := if "artist" ∈ t.cols then nunique (t.col "artist") else 0
      unique_albums := if "album" ∈ t.cols then nunique (t.col "album") else 0
      year_range := none }
  if "release_date" ∈ t.cols then
    let yr : Option (ℤ × ℤ) :=
      match listMinZ (parsedYears py t), listMaxZ (parsedYears py t) with
      | some a, some b => some (a, b)
      | _, _ => none
    ({ stats0 with year_range := some yr }, addReleaseYear py t)
  else (stats0, t)

/-! ### Chart-producing operations -/

/-- One point of the yearly-trends series: the year and the mean of each
available trend feature over the tracks of that year. -/
structure TrendPoint where
  year : ℚ
  means : List (String × Option ℚ)
deriving DecidableEq, Repr

/-- The data content of one of the five figures built by the report. -/
inductive Payload where
  | histogram (xs : List Cell)
  | radar (means : List (String × Option ℚ))
  | lines (points : List TrendPoint)
  | bars (counts : List (Cell × ℕ))
  | heatmap (entries : List (String × String × Option (ℚ × ℚ)))
deriving DecidableEq, Repr

/-- Result of `fig.to_html(full_html=False, include_plotlyjs="cdn")`:
the figure payload wrapped in a div whose id attribute is a fresh
random UUID drawn by plotly on each call (no `div_id` argument is
passed anywhere in the source).  The draw is made explicit as the
`divId` component. -/
structure Html where
  divId : String
  payload : Payload
deriving DecidableEq, Repr

/-- `ReportGenerator.create_popularity_chart`. -/
def createPopularityChart (t : Table) (d : String) : Option Html :=
  if "popularity" ∈ t.cols then
    some { divId := d, payload := Payload.histogram (t.col "popularity") }
  else none

/-- The seven audio features of the radar chart. -/
def audioFeatures7 : List String :=
  ["danceability", "energy", "valence", "acousticness",
   "instrumentalness", "liveness", "speechiness"]

/-- `ReportGenerator.create_audio_features_radar`. -/
def createAudioFeaturesRadar (t : Table) (d : String) : Option Html :=
  let avail := availIn audioFeatures7 t
  if avail = [] then none
  else
    some { divId := d
           payload := Payload.radar (avail.map (fun f =>
             (f, meanOpt ((t.col f).filterMap Cell.toNum)))) }

/-- The three audio features of the yearly-trends chart. -/
def trendFeatures : List String := ["danceability", "energy", "valence"]

/-- The rows of one `groupby("release_year")` group. -/
def groupRows (t : Table) (y : ℚ) : List Row :=
  t.rows.filter (fun r => getCell r "release_year" == Cell.num y)

/-- Group mean of feature `f` (pandas drops the NaNs of the group). -/
def featureMean (rs : List Row) (f : String) : Option ℚ :=
  meanOpt (rs.filterMap (fun r => (getCell r f).toNum))

/-- The distinct non-null keys of `groupby("release_year")`, ascending
(pandas groups with `sort=True` and drops NaN keys). -/
def yearKeys (t : Table) : List ℚ :=
  List.insertionSort (· ≤ ·) ((t.col "release_year").filterMap Cell.toNum).dedup

/-- The yearly-trends series: per-year feature means, restricted to the
years 1990–2025. -/
def yearlyTrendsData (t : Table) : List TrendPoint :=
  ((yearKeys t).filter (fun y => decide (1990 ≤ y ∧ y ≤ 2025))).map
    (fun y =>
      { year := y
        means := (availIn trendFeatures t).map (fun f =>
          (f, featureMean (groupRows t y) f)) })

/-- `ReportGenerator.create_yearly_trends`.  Note that the guard tests
for the derived `release_year` column, not for `release_date`. -/
def createYearlyTrends (t : Table) (d : String) : Option Html :=
  if "release_year" ∈ t.cols then
    if availIn trendFeatures t = [] then none
    else some { divId := d, payload := Payload.lines (yearlyTrendsData t) }
  else none

/-- The non-null entries of the `artist` column
(`Series.value_counts` drops nulls). -/
def nonNullArtists (t : Table) : List Cell :=
  (t.col "artist").filter (fun c => !c.isNull)

/-- `value_counts` of the artist column before sorting: each distinct
non-null artist with its number of tracks, in first-encountered order. -/
def artistCounts (t : Table) : List (Cell × ℕ) :=
  (nonNullArtists t).dedup.map (fun a => (a, (nonNullArtists t).count a))

/-- `self.tracks_df["artist"].value_counts().head(15)`: the counts in
non-increasing order, truncated to 15.  The order among entries of equal
count is not guaranteed by the source (the underlying sort is not
stable); the theorems below do not depend on it. -/
def topArtists (t : Table) : List (Cell × ℕ) :=
  (List.insertionSort (fun p q : Cell × ℕ => q.2 ≤ p.2) (artistCounts t)).take 15

/-- `ReportGenerator.create_top_artists_chart`. -/
def createTopArtistsChart (t : Table) (d : String) : Option Html :=
  if "artist" ∈ t.cols then
    some { divId := d, payload := Payload.bars (topArtists t) }
  else none

/-- The nine audio features of the correlation heatmap. -/
def audioFeatures9 : List String :=
  ["danceability", "energy", "valence", "tempo", "loudness",
   "acousticness", "instrumentalness", "liveness", "speechiness"]

/-- Pairwise-complete observations of columns `f` and `g`: the rows
where both cells are numeric (pandas `corr` masks each pair of columns
separately). -/
def pairObs (t : Table) (f g : String) : List (ℚ × ℚ) :=
  t.rows.filterMap (fun r =>
    match (getCell r f).toNum, (getCell r g).toNum with
    | some a, some b => some (a, b)
    | _, _ => none)

/-- Sum of products of deviations from the per-column means. -/
def covSum (l : List (ℚ × ℚ)) : ℚ :=
  let mx := (l.map Prod.fst).sum / (l.length : ℚ)
  let my := (l.map Prod.snd).sum / (l.length : ℚ)
  (l.map (fun p => (p.1 - mx) * (p.2 - my))).sum

/-- Sum of squared deviations of the first column. -/
def varSumFst (l : List (ℚ × ℚ)) : ℚ :=
  let mx := (l.map Prod.fst).sum / (l.length : ℚ)
  (l.map (fun p => (p.1 - mx) ^ 2)).sum

/-- Sum of squared deviations of the second column. -/
def varSumSnd (l : List (ℚ × ℚ)) : ℚ :=
  let my := (l.map Prod.snd).sum / (l.length : ℚ)
  (l.map (fun p => (p.2 - my) ^ 2)).sum

/-- One entry of `DataFrame.corr()` (Pearson): `none` is pandas' NaN,
produced when there is no pairwise-complete observation or when either
column has zero variance over the pairwise-complete observations (the
divisor `sqrt(sumxx) * sqrt(sumyy)` of the engine is then zero) — this
happens on the diagonal too.  A defined entry is kept symbolically as
(numerator, radicand); its value is `corrVal`. -/
def corrEntry (t : Table) (f g : String) : Option (ℚ × ℚ) :=
  let l := pairObs t f g
  if l = [] then none
  else if varSumFst l * varSumSnd l = 0 then none
  else some (covSum l, varSumFst l * varSumSnd l)

/-- Real value of a defined correlation entry. -/
noncomputable def corrVal (p : ℚ × ℚ) : ℝ :=
  (p.1 : ℝ) / Real.sqrt (p.2 : ℝ)

/-- The full correlation matrix over the available features. -/
def corrMatrixData (t : Table) : List (String × String × Option (ℚ × ℚ)) :=
  (availIn audioFeatures9 t).flatMap (fun f =>
    (availIn audioFeatures9 t).map (fun g => (f, g, corrEntry t f g)))

/-- `ReportGenerator.create_correlation_heatmap`. -/
def createCorrelationHeatmap (t : Table) (d : String) : Option Html :=
  if (availIn audioFeatures9 t).length < 2 then none
  else some { divId := d, payload := Payload.heatmap (corrMatrixData t) }

/-! ### Concrete fixtures used by the witnesses -/

/-- A concrete year parser instantiating the abstract
`pd.to_datetime(...).dt.year` parameter for the witnesses. -/
def pyW : Cell → Option ℤ
  | Cell.str s =>
    if s = "2020-01-01" then some 2020
    else if s = "2020-03-01" then some 2020
    else if s = "2021-06-01" then some 2021
    else none
  | _ => none

/-- The three-track scenario table of the specification. -/
def tW : Table :=
  { cols := ["artist", "popularity", "release_date", "danceability"]
    rows :=
      [[("artist", Cell.str "A"), ("popularity", Cell.num 80),
        ("release_date", Cell.str "2020-01-01"), ("danceability", Cell.num (1/2))],
       [("artist", Cell.str "A"), ("popularity", Cell.num 60),
        ("release_date", Cell.str "2021-06-01"), ("danceability", Cell.num (7/10))],
       [("artist", Cell.str "B"), ("popularity", Cell.num 90),
        ("release_date", Cell.str "2020-03-01"), ("danceability", Cell.num (9/10))]] }

/-- A table whose `danceability` column has zero variance. -/
def tZ : Table :=
  { cols := ["danceability", "energy"]
    rows := [[("danceability", Cell.num 1), ("energy", Cell.num 0)],
             [("danceability", Cell.num 1), ("energy", Cell.num 1)]] }

/-- A table with two non-constant audio-feature columns. -/
def tCorr : Table :=
  { cols := ["danceability", "energy"]
    rows := [[("danceability", Cell.num 0), ("energy", Cell.num 0)],
             [("danceability", Cell.num 1), ("energy", Cell.num 1)]] }

/-- A single-column table used by the divId counterexample. -/
def tPop : Table :=
  { cols := ["popularity"], rows := [[("popularity", Cell.num 80)]] }

/-- A directory listing with parquet and csv candidates, the newest
matching file being a parquet one. -/
def filesW : List FileInfo :=
  [{ name := "clean_tracks_20240101.csv", ctime := 5 },
   { name := "clean_tracks_20250101.parquet", ctime := 9 },
   { name := "clean_tracks_20230101.parquet", ctime := 3 }]

/-- The empty table (no columns, no rows). -/
def tEmpty : Table := { cols := [], rows := [] }

/-! ### Basic lemmas about the embedding -/

theorem getCell_setCell_same (r : Row) (c : String) (v : Cell) :
    getCell (setCell r c v) c = v := by
  simp [getCell, setCell, List.find?_cons_of_pos]

theorem getCell_setCell_ne (r : Row) (c c' : String) (v : Cell) (h : c' ≠ c) :
    getCell (setCell r c v) c' = getCell r c' := by
  have hb : ((c, v).1 == c') = false := by
    simp [Ne.symm h]
  simp [getCell, setCell, List.find?_cons_of_neg, hb]

theorem addReleaseYear_rows_length (py : Cell → Option ℤ) (t : Table) :
    (addReleaseYear py t).rows.length = t.rows.length := by
  simp [addReleaseYear]

theorem mem_cols_addReleaseYear (py : Cell → Option ℤ) (t : Table) (c : String) :
    c ∈ (addReleaseYear py t).cols ↔ c ∈ t.cols ∨ c = "release_year" := by
  unfold addReleaseYear
  by_cases h : "release_year" ∈ t.cols
  · simp only [if_pos h]
    constructor
    · exact Or.inl
    · rintro (hc | rfl)
      · exact hc
      · exact h
  · simp [if_neg h, List.mem_append]

theorem col_addReleaseYear_ne (py : Cell → Option ℤ) (t : Table) (c : String)
    (h : c ≠ "release_year") :
    (addReleaseYear py t).col c = t.col c := by
  unfold Table.col addReleaseYear
  simp only [List.map_map]
  apply List.map_congr_left
  intro r _
  exact getCell_setCell_ne _ _ _ _ h

theorem col_addReleaseYear_year (py : Cell → Option ℤ) (t : Table) :
    (addReleaseYear py t).col "release_year" =
      t.rows.map (fun r => parseCell py (getCell r "release_date")) := by
  unfold Table.col addReleaseYear
  simp only [List.map_map]
  apply List.map_congr_left
  intro r _
  simp only [Function.comp_apply]
  exact getCell_setCell_same _ _ _

theorem availIn_addReleaseYear (py : Cell → Option ℤ) (t : Table) (fs : List String)
    (h : ∀ f ∈ fs, f ≠ "release_year") :
    availIn fs (addReleaseYear py t) = availIn fs t := by
  unfold availIn
  apply List.filter_congr
  intro f hf
  have : f ∈ (addReleaseYear py t).cols ↔ f ∈ t.cols := by
    rw [mem_cols_addReleaseYear]
    simp [h f hf]
  simp [this]

/-! ### Lemmas about the file selection -/

theorem foldl_pick_mem (l : List FileInfo) (a : FileInfo) :
    l.foldl (fun best g => if best.ctime < g.ctime then g else best) a = a ∨
    l.foldl (fun best g => if best.ctime < g.ctime then g else best) a ∈ l := by
  induction l generalizing a with
  | nil => exact Or.inl rfl
  | cons g gs ih =>
    simp only [List.foldl_cons]
    rcases ih (if a.ctime < g.ctime then g else a) with h | h
    · rw [h]
      by_cases hc : a.ctime < g.ctime
      · right
        simp [hc]
      · left
        simp [hc]
    · right
      exact List.mem_cons_of_mem _ h

theorem foldl_pick_le (l : List FileInfo) (a : FileInfo) :
    a.ctime ≤ (l.foldl (fun best g => if best.ctime < g.ctime then g else best) a).ctime ∧
    ∀ g ∈ l, g.ctime ≤ (l.foldl (fun best g => if best.ctime < g.ctime then g else best) a).ctime := by
  induction l generalizing a with
  | nil =>
    refine ⟨le_refl _, ?_⟩
    intro g hg
    cases hg
  | cons b bs ih =>
    simp only [List.foldl_cons]
    obtain ⟨h1, h2⟩ := ih (if a.ctime < b.ctime then b else a)
    refine ⟨le_trans ?_ h1, ?_⟩
    · by_cases hc : a.ctime < b.ctime
      · simp only [if_pos hc]
        exact le_of_lt hc
      · simp [hc]
    · intro g hg
      rcases List.mem_cons.mp hg with rfl | hg
      · refine le_trans ?_ h1
        by_cases hc : a.ctime < g.ctime
        · simp [hc]
        · simp only [if_neg hc]
          exact le_of_not_lt hc
      · exact h2 g hg

theorem selectLatest_eq_none (l : List FileInfo) : selectLatest l = none ↔ l = [] := by
  cases l <;> simp [selectLatest]

theorem selectLatest_mem {l : List FileInfo} {f : FileInfo}
    (h : selectLatest l = some f) : f ∈ l := by
  cases l with
  | nil => cases h
  | cons a as =>
    simp only [selectLatest, Option.some.injEq] at h
    rw [← h]
    rcases foldl_pick_mem as a with h1 | h1
    · rw [h1]
      exact List.mem_cons_self _ _
    · exact List.mem_cons_of_mem _ h1

theorem selectLatest_maximal {l : List FileInfo} {f : FileInfo}
    (h : selectLatest l = some f) : ∀ g ∈ l, g.ctime ≤ f.ctime := by
  cases l with
  | nil => cases h
  | cons a as =>
    simp only [selectLatest, Option.some.injEq] at h
    rw [← h]
    intro g hg
    rcases List.mem_cons.mp hg with rfl | hg
    · exact (foldl_pick_le as g).1
    · exact (foldl_pick_le as a).2 g hg

theorem firstPatternHit_pair_eq_none (p1 p2 : String × String) (files : List FileInfo) :
    firstPatternHit [p1, p2] files = none ↔
      files.filter (globMatch p1.1 p1.2) = [] ∧
      files.filter (globMatch p2.1 p2.2) = [] := by
  simp only [firstPatternHit]
  cases h1 : selectLatest (files.filter (globMatch p1.1 p1.2)) with
  | some f =>
    simp only [h1]
    constructor
    · intro h
      cases h
    · rintro ⟨hA, _⟩
      rw [hA] at h1
      simp [selectLatest] at h1
  | none =>
    simp only [h1]
    cases h2 : selectLatest (files.filter (globMatch p2.1 p2.2)) with
    | some f =>
      simp only [h2]
      constructor
      · intro h
        cases h
      · rintro ⟨_, hB⟩
        rw [hB] at h2
        simp [selectLatest] at h2
    | none =>
      simp only [h2]
      have hA := (selectLatest_eq_none _).mp h1
      have hB := (selectLatest_eq_none _).mp h2
      simp [hA, hB]

/-! ### Lemmas about min/max of the parsed years -/

theorem listMinZ_eq_none (l : List ℤ) : listMinZ l = none ↔ l = [] := by
  cases l with
  | nil => simp [listMinZ]
  | cons x xs =>
    cases h : listMinZ xs <;> simp [listMinZ, h]

theorem listMaxZ_eq_none (l : List ℤ) : listMaxZ l = none ↔ l = [] := by
  cases l with
  | nil => simp [listMaxZ]
  | cons x xs =>
    cases h : listMaxZ xs <;> simp [listMaxZ, h]

theorem listMinZ_spec {l : List ℤ} {a : ℤ} (h : listMinZ l = some a) :
    a ∈ l ∧ ∀ z ∈ l, a ≤ z := by
  induction l generalizing a with
  | nil => cases h
  | cons x xs ih =>
    unfold listMinZ at h
    cases hx : listMinZ xs with
    | none =>
      rw [hx] at h
      cases h
      have hxs : xs = [] := (listMinZ_eq_none xs).mp hx
      subst hxs
      refine ⟨List.mem_cons_self _ _, ?_⟩
      intro z hz
      rcases List.mem_cons.mp hz with rfl | hz
      · exact le_refl _
      · cases hz
    | some m =>
      rw [hx] at h
      cases h
      obtain ⟨hm, hall⟩ := ih hx
      constructor
      · rcases min_choice x m with hc | hc
        · rw [hc]
          exact List.mem_cons_self _ _
        · rw [hc]
          exact List.mem_cons_of_mem _ hm
      · intro z hz
        rcases List.mem_cons.mp hz with rfl | hz
        · exact min_le_left _ _
        · exact le_trans (min_le_right _ _) (hall z hz)

theorem listMaxZ_spec {l : List ℤ} {a : ℤ} (h : listMaxZ l = some a) :
    a ∈ l ∧ ∀ z ∈ l, z ≤ a := by
  induction l generalizing a with
  | nil => cases h
  | cons x xs ih =>
    unfold listMaxZ at h
    cases hx : listMaxZ xs with
    | none =>
      rw [hx] at h
      cases h
      have hxs : xs = [] := (listMaxZ_eq_none xs).mp hx
      subst hxs
      refine ⟨List.mem_cons_self _ _, ?_⟩
      intro z hz
      rcases List.mem_cons.mp hz with rfl | hz
      · exact le_refl _
      · cases hz
    | some m =>
      rw [hx] at h
      cases h
      obtain ⟨hm, hall⟩ := ih hx
      constructor
      · rcases max_choice x m with hc | hc
        · rw [hc]
          exact List.mem_cons_self _ _
        · rw [hc]
          exact List.mem_cons_of_mem _ hm
      · intro z hz
        rcases List.mem_cons.mp hz with rfl | hz
        · exact le_max_left _ _
        · exact le_trans (hall z hz) (le_max_right _ _)

/-! ### Claim C8 -/

/-- C8: for every tracks table with N rows, the total_tracks field of
the summary statistics equals N. -/
theorem C8_total_tracks (py : Cell → Option ℤ) (t : Table) (pl : Option ℕ) :
    (createSummaryStats py t pl).1.total_tracks = t.rows.length := by
  unfold createSummaryStats
  by_cases h : "release_date" ∈ t.cols <;> simp [h]

/-! ### Claim C1 -/

/-- C1: every aggregation operation signals missing or insufficient
required columns with the absent marker `none` instead of raising (each
operation of the embedding is a total function into an `Option`), and
the loader fails with the Not-Found error exactly when no candidate
file for the primary tracks table exists. -/
theorem C1_error_policy (t : Table) (d : String) (files : List FileInfo) :
    ("popularity" ∉ t.cols → createPopularityChart t d = none) ∧
    (availIn audioFeatures7 t = [] → createAudioFeaturesRadar t d = none) ∧
    ("release_year" ∉ t.cols ∨ availIn trendFeatures t = [] →
      createYearlyTrends t d = none) ∧
    ("artist" ∉ t.cols → createTopArtistsChart t d = none) ∧
    ((availIn audioFeatures9 t).length < 2 → createCorrelationHeatmap t d = none) ∧
    (loadData files = Except.error "No processed tracks data found" ↔
      ∀ f ∈ files, globMatch "clean_tracks_" ".parquet" f = false ∧
                   globMatch "clean_tracks_" ".csv" f = false) := by
  refine ⟨?_, ?_, ?_, ?_, ?_, ?_⟩
  · intro h
    simp [createPopularityChart, h]
  · intro h
    simp [createAudioFeaturesRadar, h]
  · rintro (h | h)
    · simp [createYearlyTrends, h]
    · by_cases hry : "release_year" ∈ t.cols <;> simp [createYearlyTrends, h, hry]
  · intro h
    simp [createTopArtistsChart, h]
  · intro h
    simp [createCorrelationHeatmap, h]
  · have hiff : loadData files = Except.error "No processed tracks data found" ↔
        firstPatternHit tracksPatterns files = none := by
      unfold loadData
      cases h : firstPatternHit tracksPatterns files <;> simp [h]
    rw [hiff]
    have hpair := firstPatternHit_pair_eq_none
      ("clean_tracks_", ".parquet") ("clean_tracks_", ".csv") files
    rw [show tracksPatterns = [("clean_tracks_", ".parquet"), ("clean_tracks_", ".csv")] from rfl,
      hpair, List.filter_eq_nil_iff, List.filter_eq_nil_iff]
    constructor
    · rintro ⟨hA, hB⟩ f hf
      exact ⟨by simpa using hA f hf, by simpa using hB f hf⟩
    · intro h
      constructor
      · intro f hf
        simp [(h f hf).1]
      · intro f hf
        simp [(h f hf).2]

/-- Witness for C1 at the empty table and the empty directory. -/
theorem C1_error_policy_witness :
    createPopularityChart tEmpty "d" = none ∧
    createAudioFeaturesRadar tEmpty "d" = none ∧
    createYearlyTrends tEmpty "d" = none ∧
    createTopArtistsChart tEmpty "d" = none ∧
    createCorrelationHeatmap tEmpty "d" = none ∧
    loadData [] = Except.error "No processed tracks data found" :=
  ⟨(C1_error_policy tEmpty "d" []).1 (by decide),
   (C1_error_policy tEmpty "d" []).2.1 (by decide),
   (C1_error_policy tEmpty "d" []).2.2.1 (Or.inl (by decide)),
   (C1_error_policy tEmpty "d" []).2.2.2.1 (by decide),
   (C1_error_policy tEmpty "d" []).2.2.2.2.1 (by decide),
   (C1_error_policy tEmpty "d" []).2.2.2.2.2.mpr (by simp)⟩

/-! ### Claim C5 -/

/-- C5: with a release_date column, `year_range` is the min and max of
the parseable years; when no date parses it is the explicit null marker
(the `except` branch of the source), never an exception. -/
theorem C5_year_range (py : Cell → Option ℤ) (t : Table) (pl : Option ℕ)
    (h : "release_date" ∈ t.cols) :
    (parsedYears py t = [] →
      (createSummaryStats py t pl).1.year_range = some none) ∧
    (parsedYears py t ≠ [] →
      ∃ a b, (createSummaryStats py t pl).1.year_range = some (some (a, b)) ∧
        a ∈ parsedYears py t ∧ b ∈ parsedYears py t ∧
        ∀ z ∈ parsedYears py t, a ≤ z ∧ z ≤ b) := by
  unfold createSummaryStats
  simp only [if_pos h]
  constructor
  · intro he
    have h1 : listMinZ (parsedYears py t) = none := (listMinZ_eq_none _).mpr he
    simp [h1]
  · intro hne
    cases hmin : listMinZ (parsedYears py t) with
    | none => exact absurd ((listMinZ_eq_none _).mp hmin) hne
    | some a =>
      cases hmax : listMaxZ (parsedYears py t) with
      | none => exact absurd ((listMaxZ_eq_none _).mp hmax) hne
      | some b =>
        obtain ⟨hma, halla⟩ := listMinZ_spec hmin
        obtain ⟨hmb, hallb⟩ := listMaxZ_spec hmax
        refine ⟨a, b, ?_, hma, hmb, fun z hz => ⟨halla z hz, hallb z hz⟩⟩
        simp [hmin, hmax]

/-- Witness for C5 at the three-track scenario table. -/
theorem C5_year_range_witness :
    "release_date" ∈ tW.cols ∧
    ∃ a b, (createSummaryStats pyW tW none).1.year_range = some (some (a, b)) ∧
      a ∈ parsedYears pyW tW ∧ b ∈ parsedYears pyW tW ∧
      ∀ z ∈ parsedYears pyW tW, a ≤ z ∧ z ≤ b :=
  ⟨by decide, (C5_year_range pyW tW none (by decide)).2 (by decide)⟩

/-! ### Claim C6 -/

/-- C6: the loader tries the parquet pattern before the csv fallback and
takes the most recently created match; whenever any parquet candidate
exists — in particular when both formats exist and the parquet one is
newer — the selected tracks file is a parquet candidate of maximal
creation time. -/
theorem C6_loader_preference (files : List FileInfo)
    (h : ∃ f ∈ files, globMatch "clean_tracks_" ".parquet" f = true) :
    ∃ f, firstPatternHit tracksPatterns files = some f ∧
      f ∈ files ∧ globMatch "clean_tracks_" ".parquet" f = true ∧
      (∀ g ∈ files, globMatch "clean_tracks_" ".parquet" g = true → g.ctime ≤ f.ctime) ∧
      ∀ res, loadData files = Except.ok res → res.1 = f := by
  obtain ⟨f0, hf0, hm0⟩ := h
  have hne : files.filter (globMatch "clean_tracks_" ".parquet") ≠ [] := by
    intro he
    have := List.filter_eq_nil_iff.mp he f0 hf0
    simp [hm0] at this
  cases hsel : selectLatest (files.filter (globMatch "clean_tracks_" ".parquet")) with
  | none => exact absurd ((selectLatest_eq_none _).mp hsel) hne
  | some f =>
    have hmem := selectLatest_mem hsel
    have hmax := selectLatest_maximal hsel
    have hfilter := List.mem_filter.mp hmem
    have hhit : firstPatternHit tracksPatterns files = some f := by
      show firstPatternHit
        [("clean_tracks_", ".parquet"), ("clean_tracks_", ".csv")] files = some f
      simp only [firstPatternHit]
      rw [hsel]
    refine ⟨f, hhit, hfilter.1, hfilter.2, ?_, ?_⟩
    · intro g hg hmg
      exact hmax g (List.mem_filter.mpr ⟨hg, hmg⟩)
    · intro res hres
      unfold loadData at hres
      rw [hhit] at hres
      cases hres
      rfl

/-- Witness for C6: parquet and csv candidates are both present and the
newest file is a parquet one. -/
theorem C6_loader_preference_witness :
    (∃ f ∈ filesW, globMatch "clean_tracks_" ".parquet" f = true) ∧
    ∃ f, firstPatternHit tracksPatterns filesW = some f ∧
      f ∈ filesW ∧ globMatch "clean_tracks_" ".parquet" f = true ∧
      (∀ g ∈ filesW, globMatch "clean_tracks_" ".parquet" g = true → g.ctime ≤ f.ctime) ∧
      ∀ res, loadData filesW = Except.ok res → res.1 = f :=
  ⟨by decide, C6_loader_preference filesW (by decide)⟩

/-! ### Claim C9 -/

/-- C9: `create_yearly_trends` reads the `release_year` column that only
`create_summary_stats` writes (as a side effect on the shared table):
on a table with `release_date` but no `release_year`, the trends
operation yields the unavailable marker before the stats operation has
run and yields the trend series afterwards. -/
theorem C9_order_dependency (py : Cell → Option ℤ) (t : Table) (pl : Option ℕ) (d : String)
    (h1 : "release_date" ∈ t.cols) (h2 : "release_year" ∉ t.cols)
    (h3 : availIn trendFeatures t ≠ []) :
    createYearlyTrends t d = none ∧
    createYearlyTrends (createSummaryStats py t pl).2 d =
      some { divId := d
             payload := Payload.lines (yearlyTrendsData (addReleaseYear py t)) } := by
  constructor
  · simp [createYearlyTrends, h2]
  · have hsnd : (createSummaryStats py t pl).2 = addReleaseYear py t := by
      unfold createSummaryStats
      simp [h1]
    rw [hsnd]
    have hry : "release_year" ∈ (addReleaseYear py t).cols :=
      (mem_cols_addReleaseYear py t _).mpr (Or.inr rfl)
    have havail : availIn trendFeatures (addReleaseYear py t) = availIn trendFeatures t :=
      availIn_addReleaseYear py t trendFeatures (by decide)
    simp [createYearlyTrends, hry, havail, h3]

/-- Witness for C9 at the three-track scenario table. -/
theorem C9_order_dependency_witness :
    ("release_date" ∈ tW.cols ∧ "release_year" ∉ tW.cols ∧
      availIn trendFeatures tW ≠ []) ∧
    createYearlyTrends tW "d" = none ∧
    createYearlyTrends (createSummaryStats pyW tW none).2 "d" =
      some { divId := "d"
             payload := Payload.lines (yearlyTrendsData (addReleaseYear pyW tW)) } :=
  ⟨⟨by decide, by decide, by decide⟩,
   C9_order_dependency pyW tW none "d" (by decide) (by decide) (by decide)⟩

/-! ### Claim C7 -/

/-- Closed form of the stats component of `create_summary_stats`. -/
theorem createSummaryStats_fst (py : Cell → Option ℤ) (t : Table) (pl : Option ℕ) :
    (createSummaryStats py t pl).1 =
      { total_tracks := t.rows.length
        total_playlists := pl.getD 0
        unique_artists := if "artist" ∈ t.cols then nunique (t.col "artist") else 0
        unique_albums := if "album" ∈ t.cols then nunique (t.col "album") else 0
        year_range :=
          if "release_date" ∈ t.cols then
            some (match listMinZ (parsedYears py t), listMaxZ (parsedYears py t) with
              | some a, some b => some (a, b)
              | _, _ => none)
          else none } := by
  unfold createSummaryStats
  by_cases h : "release_date" ∈ t.cols <;> simp [h]

/-- The derived-year column rewrite does not change the parsed years. -/
theorem parsedYears_addReleaseYear (py : Cell → Option ℤ) (t : Table) :
    parsedYears py (addReleaseYear py t) = parsedYears py t := by
  unfold parsedYears
  rw [col_addReleaseYear_ne py t _ (by decide)]

/-- C7 counterexample: the chart operations render the figure into a div
whose id is freshly drawn by plotly on every call, so two invocations on
the same unchanged table give different HTML outputs whenever the two
random draws differ. -/
theorem C7_counterexample :
    createPopularityChart tPop "a3f07c" ≠ createPopularityChart tPop "b21799" := by
  decide

/-- C7 amended: each operation is a deterministic function of the table
and the drawn div id — with equal draws the outputs coincide, and the
figure payloads coincide regardless of the draws; the summary-statistics
operation returns identical stats on repeated invocation even though its
first run mutates the shared table by adding the `release_year` column. -/
theorem C7_amended_determinism (py : Cell → Option ℤ) (t : Table) (pl : Option ℕ)
    (d1 d2 : String) :
    (createSummaryStats py (createSummaryStats py t pl).2 pl).1 =
      (createSummaryStats py t pl).1 ∧
    (createPopularityChart t d1).map Html.payload =
      (createPopularityChart t d2).map Html.payload ∧
    (createAudioFeaturesRadar t d1).map Html.payload =
      (createAudioFeaturesRadar t d2).map Html.payload ∧
    (createYearlyTrends t d1).map Html.payload =
      (createYearlyTrends t d2).map Html.payload ∧
    (createTopArtistsChart t d1).map Html.payload =
      (createTopArtistsChart t d2).map Html.payload ∧
    (createCorrelationHeatmap t d1).map Html.payload =
      (createCorrelationHeatmap t d2).map Html.payload ∧
    (d1 = d2 →
      createPopularityChart t d1 = createPopularityChart t d2 ∧
      createAudioFeaturesRadar t d1 = createAudioFeaturesRadar t d2 ∧
      createYearlyTrends t d1 = createYearlyTrends t d2 ∧
      createTopArtistsChart t d1 = createTopArtistsChart t d2 ∧
      createCorrelationHeatmap t d1 = createCorrelationHeatmap t d2) := by
  refine ⟨?_, ?_, ?_, ?_, ?_, ?_, ?_⟩
  · by_cases h : "release_date" ∈ t.cols
    · have hsnd : (createSummaryStats py t pl).2 = addReleaseYear py t := by
        unfold createSummaryStats
        simp [h]
      rw [hsnd, createSummaryStats_fst, createSummaryStats_fst]
      simp only [SummaryStats.mk.injEq]
      refine ⟨addReleaseYear_rows_length py t, trivial, ?_, ?_, ?_⟩
      · by_cases ha : "artist" ∈ t.cols
        · rw [if_pos ha, if_pos ((mem_cols_addReleaseYear py t _).mpr (Or.inl ha)),
            col_addReleaseYear_ne py t "artist" (by decide)]
        · rw [if_neg ha, if_neg (fun hc => ha (((mem_cols_addReleaseYear py t _).mp hc).resolve_right (by decide)))]
      · by_cases ha : "album" ∈ t.cols
        · rw [if_pos ha, if_pos ((mem_cols_addReleaseYear py t _).mpr (Or.inl ha)),
            col_addReleaseYear_ne py t "album" (by decide)]
        · rw [if_neg ha, if_neg (fun hc => ha (((mem_cols_addReleaseYear py t _).mp hc).resolve_right (by decide)))]
      · rw [if_pos h, if_pos ((mem_cols_addReleaseYear py t _).mpr (Or.inl h)),
          parsedYears_addReleaseYear]
    · have hsnd : (createSummaryStats py t pl).2 = t := by
        unfold createSummaryStats
        simp [h]
      rw [hsnd]
  · by_cases h : "popularity" ∈ t.cols <;> simp [createPopularityChart, h]
  · by_cases h : availIn audioFeatures7 t = [] <;> simp [createAudioFeaturesRadar, h]
  · by_cases h1 : "release_year" ∈ t.cols
    · by_cases h2 : availIn trendFeatures t = [] <;> simp [createYearlyTrends, h1, h2]
    · simp [createYearlyTrends, h1]
  · by_cases h : "artist" ∈ t.cols <;> simp [createTopArtistsChart, h]
  · by_cases h : (availIn audioFeatures9 t).length < 2 <;> simp [createCorrelationHeatmap, h]
  · rintro rfl
    exact ⟨rfl, rfl, rfl, rfl, rfl⟩

/-- Witness for C7's amended statement at the scenario table. -/
theorem C7_amended_determinism_witness :
    (createSummaryStats pyW (createSummaryStats pyW tW none).2 none).1 =
      (createSummaryStats pyW tW none).1 ∧
    (createPopularityChart tW "u").map Html.payload =
      (createPopularityChart tW "v").map Html.payload ∧
    createPopularityChart tW "u" = createPopularityChart tW "u" :=
  ⟨(C7_amended_determinism pyW tW none "u" "v").1,
   (C7_amended_determinism pyW tW none "u" "v").2.1,
   ((C7_amended_determinism pyW tW none "u" "u").2.2.2.2.2.2 rfl).1⟩

/-! ### Claim C10 -/

theorem sum_take_le (l : List ℕ) (n : ℕ) : (l.take n).sum ≤ l.sum := by
  conv_rhs => rw [← List.take_append_drop n l]
  rw [List.sum_append]
  exact Nat.le_add_right _ _

theorem artistCounts_sum (t : Table) :
    ((artistCounts t).map Prod.snd).sum = (nonNullArtists t).length := by
  unfold artistCounts
  rw [List.map_map]
  have hc : (Prod.snd ∘ fun a => (a, (nonNullArtists t).count a)) =
      fun a => (nonNullArtists t).count a := rfl
  rw [hc]
  exact List.sum_map_count_dedup_eq_length _

/-- C10: `value_counts` drops null artists: every returned pair carries a
non-null artist together with its exact number of tracks, and the
returned counts sum to at most the number of rows with a non-null
artist. -/
theorem C10_top_artists_nonnull (t : Table) (d : String) (h : "artist" ∈ t.cols) :
    createTopArtistsChart t d =
      some { divId := d, payload := Payload.bars (topArtists t) } ∧
    (∀ p ∈ topArtists t, p.1.isNull = false ∧
      p.2 = (nonNullArtists t).count p.1) ∧
    ((topArtists t).map Prod.snd).sum ≤ (nonNullArtists t).length := by
  refine ⟨by simp [createTopArtistsChart, h], ?_, ?_⟩
  · intro p hp
    have hp1 : p ∈ List.insertionSort (fun p q : Cell × ℕ => q.2 ≤ p.2) (artistCounts t) :=
      List.mem_of_mem_take hp
    have hp2 : p ∈ artistCounts t :=
      (List.perm_insertionSort _ _).mem_iff.mp hp1
    obtain ⟨a, ha, rfl⟩ := List.mem_map.mp hp2
    have hmem : a ∈ nonNullArtists t := List.mem_dedup.mp ha
    have hflt := List.mem_filter.mp hmem
    refine ⟨?_, rfl⟩
    simpa using hflt.2
  · have hperm :
        (List.insertionSort (fun p q : Cell × ℕ => q.2 ≤ p.2) (artistCounts t)).Perm
          (artistCounts t) :=
      List.perm_insertionSort _ _
    calc ((topArtists t).map Prod.snd).sum
        ≤ ((List.insertionSort (fun p q : Cell × ℕ => q.2 ≤ p.2)
            (artistCounts t)).map Prod.snd).sum := by
          rw [topArtists, List.map_take]
          exact sum_take_le _ _
      _ = ((artistCounts t).map Prod.snd).sum := (hperm.map _).sum_eq
      _ = (nonNullArtists t).length := artistCounts_sum t

/-- Witness for C10 at the scenario table. -/
theorem C10_top_artists_nonnull_witness :
    "artist" ∈ tW.cols ∧
    createTopArtistsChart tW "d" =
      some { divId := "d", payload := Payload.bars (topArtists tW) } ∧
    ((topArtists tW).map Prod.snd).sum ≤ (nonNullArtists tW).length :=
  ⟨by decide, (C10_top_artists_nonnull tW "d" (by decide)).1,
   (C10_top_artists_nonnull tW "d" (by decide)).2.2⟩

/-! ### Claim C3 -/

theorem addReleaseYear_rows (py : Cell → Option ℤ) (t : Table) :
    (addReleaseYear py t).rows =
      t.rows.map (fun r =>
        setCell r "release_year" (parseCell py (getCell r "release_date"))) := rfl

theorem toNum_parseCell (py : Cell → Option ℤ) (c : Cell) :
    (parseCell py c).toNum = (py c).map (fun z : ℤ => (z : ℚ)) := by
  unfold parseCell
  cases py c <;> rfl

/-- The numeric values of the derived `release_year` column are exactly
the parsed years of the `release_date` column, cast to ℚ. -/
theorem releaseYear_nums (py : Cell → Option ℤ) (t : Table) :
    ((addReleaseYear py t).col "release_year").filterMap Cell.toNum =
      t.rows.filterMap (fun r =>
        (py (getCell r "release_date")).map (fun z : ℤ => (z : ℚ))) := by
  rw [col_addReleaseYear_year, List.filterMap_map]
  have hfun : (Cell.toNum ∘ fun r => parseCell py (getCell r "release_date")) =
      fun r => (py (getCell r "release_date")).map (fun z : ℤ => (z : ℚ)) := by
    funext r
    exact toNum_parseCell py _
  rw [hfun]

theorem yearKeys_sorted (t : Table) : List.Pairwise (· < ·) (yearKeys t) := by
  unfold yearKeys
  have hs : List.Sorted (· ≤ ·)
      (List.insertionSort (· ≤ ·) (((t.col "release_year").filterMap Cell.toNum).dedup)) :=
    List.sorted_insertionSort _ _
  have hn : (List.insertionSort (· ≤ ·)
      (((t.col "release_year").filterMap Cell.toNum).dedup)).Nodup :=
    (List.perm_insertionSort _ _).nodup_iff.mpr (List.nodup_dedup _)
  exact hs.lt_of_le hn

theorem mem_yearKeys (t : Table) (y : ℚ) :
    y ∈ yearKeys t ↔ y ∈ (t.col "release_year").filterMap Cell.toNum := by
  unfold yearKeys
  rw [(List.perm_insertionSort _ _).mem_iff, List.mem_dedup]

theorem yearlyTrendsData_years (t : Table) :
    (yearlyTrendsData t).map TrendPoint.year =
      (yearKeys t).filter (fun y => decide (1990 ≤ y ∧ y ≤ 2025)) := by
  unfold yearlyTrendsData
  rw [List.map_map]
  have hfun : (TrendPoint.year ∘ fun y =>
      ({ year := y
         means := (availIn trendFeatures t).map (fun f =>
           (f, featureMean (groupRows t y) f)) } : TrendPoint)) = id := by
    funext y
    rfl
  rw [hfun, List.map_id]

/-- Group means computed on the mutated table equal the means over the
original rows grouped by the parsed year. -/
theorem featureMean_groupRows_addReleaseYear (py : Cell → Option ℤ) (t : Table)
    (y : ℚ) (f : String) (hf : f ≠ "release_year") :
    featureMean (groupRows (addReleaseYear py t) y) f =
      meanOpt ((t.rows.filter (fun r =>
        parseCell py (getCell r "release_date") == Cell.num y)).filterMap
        (fun r => (getCell r f).toNum)) := by
  unfold featureMean groupRows
  have hP : ((fun r => getCell r "release_year" == Cell.num y) ∘
      fun r => setCell r "release_year" (parseCell py (getCell r "release_date"))) =
      fun r => parseCell py (getCell r "release_date") == Cell.num y := by
    funext r
    simp only [Function.comp_apply, getCell_setCell_same]
  have hF : ((fun r => (getCell r f).toNum) ∘
      fun r => setCell r "release_year" (parseCell py (getCell r "release_date"))) =
      fun r => (getCell r f).toNum := by
    funext r
    simp only [Function.comp_apply, getCell_setCell_ne _ _ _ _ hf]
  rw [addReleaseYear_rows, List.filter_map, List.filterMap_map, hP, hF]

/-- C3: after the pipeline derives the `release_year` column, the
yearly-trends series groups the rows by the year parsed from
release_date (unparsable dates excluded), keeps exactly the years in
[1990, 2025], is strictly ascending with no duplicate years, and holds
the per-group mean of each available trend feature. -/
theorem C3_yearly_trends (py : Cell → Option ℤ) (t : Table) (d : String)
    (hrd : "release_date" ∈ t.cols) (hf : availIn trendFeatures t ≠ []) :
    ∃ s : List TrendPoint,
      createYearlyTrends (addReleaseYear py t) d =
        some { divId := d, payload := Payload.lines s } ∧
      List.Pairwise (· < ·) (s.map TrendPoint.year) ∧
      (∀ p ∈ s, 1990 ≤ p.year ∧ p.year ≤ 2025) ∧
      (∀ y : ℚ, (∃ p ∈ s, p.year = y) ↔
        ∃ z : ℤ, (z : ℚ) = y ∧ 1990 ≤ z ∧ z ≤ 2025 ∧
          ∃ r ∈ t.rows, py (getCell r "release_date") = some z) ∧
      (∀ p ∈ s, p.means = (availIn trendFeatures t).map (fun g =>
        (g, meanOpt ((t.rows.filter (fun r =>
            parseCell py (getCell r "release_date") == Cell.num p.year)).filterMap
            (fun r => (getCell r g).toNum))))) := by
  have havail : availIn trendFeatures (addReleaseYear py t) = availIn trendFeatures t :=
    availIn_addReleaseYear py t trendFeatures (by decide)
  refine ⟨yearlyTrendsData (addReleaseYear py t), ?_, ?_, ?_, ?_, ?_⟩
  · have hry : "release_year" ∈ (addReleaseYear py t).cols :=
      (mem_cols_addReleaseYear py t _).mpr (Or.inr rfl)
    simp [createYearlyTrends, hry, havail, hf]
  · rw [yearlyTrendsData_years]
    exact (yearKeys_sorted _).sublist (List.filter_sublist _)
  · intro p hp
    unfold yearlyTrendsData at hp
    obtain ⟨y, hy, rfl⟩ := List.mem_map.mp hp
    obtain ⟨-, hdec⟩ := List.mem_filter.mp hy
    exact of_decide_eq_true hdec
  · intro y
    constructor
    · rintro ⟨p, hp, rfl⟩
      unfold yearlyTrendsData at hp
      obtain ⟨yy, hyy, rfl⟩ := List.mem_map.mp hp
      obtain ⟨hk, hdec⟩ := List.mem_filter.mp hyy
      obtain ⟨h1, h2⟩ := of_decide_eq_true hdec
      have hmem : yy ∈ t.rows.filterMap (fun r =>
          (py (getCell r "release_date")).map (fun z : ℤ => (z : ℚ))) := by
        rw [← releaseYear_nums py t]
        exact (mem_yearKeys _ yy).mp hk
      obtain ⟨r, hr, hsome⟩ := List.mem_filterMap.mp hmem
      obtain ⟨z, hz, hcast⟩ := Option.map_eq_some'.mp hsome
      refine ⟨z, hcast, ?_, ?_, r, hr, hz⟩
      · rw [← hcast] at h1
        exact_mod_cast h1
      · rw [← hcast] at h2
        exact_mod_cast h2
    · rintro ⟨z, rfl, h1, h2, r, hr, hz⟩
      have hmem : ((z : ℚ)) ∈ t.rows.filterMap (fun r =>
          (py (getCell r "release_date")).map (fun w : ℤ => (w : ℚ))) :=
        List.mem_filterMap.mpr ⟨r, hr, by rw [hz]; rfl⟩
      have hk : (z : ℚ) ∈ yearKeys (addReleaseYear py t) := by
        rw [mem_yearKeys, releaseYear_nums py t]
        exact hmem
      refine ⟨{ year := (z : ℚ)
                means := (availIn trendFeatures (addReleaseYear py t)).map (fun g =>
                  (g, featureMean (groupRows (addReleaseYear py t) (z : ℚ)) g)) }, ?_, rfl⟩
      unfold yearlyTrendsData
      refine List.mem_map.mpr ⟨(z : ℚ), ?_, rfl⟩
      refine List.mem_filter.mpr ⟨hk, ?_⟩
      refine decide_eq_true ?_
      constructor
      · exact_mod_cast h1
      · exact_mod_cast h2
  · intro p hp
    unfold yearlyTrendsData at hp
    obtain ⟨y, hy, rfl⟩ := List.mem_map.mp hp
    show (availIn trendFeatures (addReleaseYear py t)).map _ =
      (availIn trendFeatures t).map _
    rw [havail]
    apply List.map_congr_left
    intro g hg
    have hgne : g ≠ "release_year" := by
      have hall : ∀ g ∈ trendFeatures, g ≠ "release_year" := by decide
      exact hall g (List.mem_filter.mp hg).1
    exact congrArg (fun m => (g, m))
      (featureMean_groupRows_addReleaseYear py t y g hgne)

/-- Witness for C3 at the scenario table. -/
theorem C3_yearly_trends_witness :
    ("release_date" ∈ tW.cols ∧ availIn trendFeatures tW ≠ []) ∧
    ∃ s : List TrendPoint,
      createYearlyTrends (addReleaseYear pyW tW) "d" =
        some { divId := "d", payload := Payload.lines s } ∧
      List.Pairwise (· < ·) (s.map TrendPoint.year) ∧
      (∀ p ∈ s, 1990 ≤ p.year ∧ p.year ≤ 2025) ∧
      (∀ y : ℚ, (∃ p ∈ s, p.year = y) ↔
        ∃ z : ℤ, (z : ℚ) = y ∧ 1990 ≤ z ∧ z ≤ 2025 ∧
          ∃ r ∈ tW.rows, pyW (getCell r "release_date") = some z) ∧
      (∀ p ∈ s, p.means = (availIn trendFeatures tW).map (fun g =>
        (g, meanOpt ((tW.rows.filter (fun r =>
            parseCell pyW (getCell r "release_date") == Cell.num p.year)).filterMap
            (fun r => (getCell r g).toNum))))) :=
  ⟨⟨by decide, by decide⟩, C3_yearly_trends pyW tW "d" (by decide) (by decide)⟩

/-! ### Claim C2 -/

theorem sum_map_sq_nonneg (l : List (ℚ × ℚ)) (f : ℚ × ℚ → ℚ) :
    0 ≤ (l.map (fun p => f p ^ 2)).sum := by
  apply List.sum_nonneg
  intro x hx
  obtain ⟨p, -, rfl⟩ := List.mem_map.mp hx
  positivity

/-- Cauchy–Schwarz for lists of pairs, squared form. -/
theorem list_cauchy_schwarz (l : List (ℚ × ℚ)) :
    ((l.map (fun p => p.1 * p.2)).sum) ^ 2 ≤
      ((l.map (fun p => p.1 ^ 2)).sum) * ((l.map (fun p => p.2 ^ 2)).sum) := by
  induction l with
  | nil => simp
  | cons q l ih =>
    simp only [List.map_cons, List.sum_cons]
    have hA : 0 ≤ (l.map (fun p => p.1 ^ 2)).sum :=
      sum_map_sq_nonneg l Prod.fst
    have hB : 0 ≤ (l.map (fun p => p.2 ^ 2)).sum :=
      sum_map_sq_nonneg l Prod.snd
    set C := (l.map (fun p => p.1 * p.2)).sum with hCdef
    set A := (l.map (fun p => p.1 ^ 2)).sum with hAdef
    set B := (l.map (fun p => p.2 ^ 2)).sum with hBdef
    rcases eq_or_lt_of_le hA with hA0 | hA0
    · have hC2 : C ^ 2 ≤ 0 := by
        calc C ^ 2 ≤ A * B := ih
          _ = 0 := by rw [← hA0, zero_mul]
      have hC0 : C = 0 :=
        (pow_eq_zero_iff (by norm_num : (2 : ℕ) ≠ 0)).mp
          (le_antisymm hC2 (sq_nonneg C))
      rw [hC0, ← hA0]
      nlinarith [mul_nonneg (sq_nonneg q.1) hB]
    · nlinarith [sq_nonneg (A * q.2 - q.1 * C),
        mul_nonneg (sq_nonneg q.1) (sub_nonneg.mpr ih),
        mul_nonneg hA0.le (sub_nonneg.mpr ih)]

theorem varSumFst_nonneg (l : List (ℚ × ℚ)) : 0 ≤ varSumFst l := by
  unfold varSumFst
  exact sum_map_sq_nonneg l _

theorem varSumSnd_nonneg (l : List (ℚ × ℚ)) : 0 ≤ varSumSnd l := by
  unfold varSumSnd
  exact sum_map_sq_nonneg l _

/-- The squared deviation-product sum is bounded by the product of the
squared deviation sums. -/
theorem covSum_sq_le (l : List (ℚ × ℚ)) :
    covSum l ^ 2 ≤ varSumFst l * varSumSnd l := by
  have h := list_cauchy_schwarz (l.map (fun p =>
    (p.1 - (l.map Prod.fst).sum / (l.length : ℚ),
     p.2 - (l.map Prod.snd).sum / (l.length : ℚ))))
  simp only [List.map_map, Function.comp] at h
  simpa only [covSum, varSumFst, varSumSnd] using h

theorem pairObs_self (t : Table) (f : String) :
    pairObs t f f =
      (t.rows.filterMap (fun r => (getCell r f).toNum)).map (fun a => (a, a)) := by
  unfold pairObs
  generalize t.rows = rs
  induction rs with
  | nil => rfl
  | cons r rs ih =>
    simp only [List.filterMap_cons]
    cases h : (getCell r f).toNum with
    | none => simpa [h] using ih
    | some a => simpa [h] using ih

theorem pairObs_swap (t : Table) (f g : String) :
    pairObs t g f = (pairObs t f g).map Prod.swap := by
  unfold pairObs
  generalize t.rows = rs
  induction rs with
  | nil => rfl
  | cons r rs ih =>
    simp only [List.filterMap_cons]
    cases h1 : (getCell r f).toNum with
    | none =>
      cases h2 : (getCell r g).toNum with
      | none => simpa [h1, h2] using ih
      | some b => simpa [h1, h2] using ih
    | some a =>
      cases h2 : (getCell r g).toNum with
      | none => simpa [h1, h2] using ih
      | some b => simpa [h1, h2] using ih

theorem varSumFst_map_swap (l : List (ℚ × ℚ)) :
    varSumFst (l.map Prod.swap) = varSumSnd l := by
  simp only [varSumFst, varSumSnd, List.map_map, List.length_map]
  rfl

theorem varSumSnd_map_swap (l : List (ℚ × ℚ)) :
    varSumSnd (l.map Prod.swap) = varSumFst l := by
  simp only [varSumFst, varSumSnd, List.map_map, List.length_map]
  rfl

theorem covSum_map_swap (l : List (ℚ × ℚ)) :
    covSum (l.map Prod.swap) = covSum l := by
  simp only [covSum, List.map_map, List.length_map]
  rw [show (Prod.fst ∘ Prod.swap : ℚ × ℚ → ℚ) = Prod.snd from rfl,
    show (Prod.snd ∘ Prod.swap : ℚ × ℚ → ℚ) = Prod.fst from rfl]
  congr 1
  apply List.map_congr_left
  intro p _
  simp only [Function.comp_apply, Prod.fst_swap, Prod.snd_swap]
  ring

/-- Symmetry of the Pearson-correlation entries. -/
theorem corrEntry_symm (t : Table) (f g : String) :
    corrEntry t f g = corrEntry t g f := by
  simp only [corrEntry]
  rw [pairObs_swap t f g]
  set l := pairObs t f g with hl
  by_cases he : l = []
  · rw [he]
    simp
  · have he' : l.map Prod.swap ≠ [] := by simpa using he
    rw [if_neg he, if_neg he', covSum_map_swap, varSumFst_map_swap, varSumSnd_map_swap,
      mul_comm (varSumSnd l) (varSumFst l)]

theorem diag_covSum (vals : List ℚ) :
    covSum (vals.map (fun a => (a, a))) = varSumFst (vals.map (fun a => (a, a))) := by
  simp only [covSum, varSumFst, List.map_map, List.length_map]
  rw [show (Prod.snd ∘ fun a : ℚ => (a, a)) = (Prod.fst ∘ fun a : ℚ => (a, a)) from rfl]
  congr 1
  apply List.map_congr_left
  intro a _
  simp only [Function.comp_apply]
  ring

theorem diag_varSumSnd (vals : List ℚ) :
    varSumSnd (vals.map (fun a => (a, a))) = varSumFst (vals.map (fun a => (a, a))) := by
  simp only [varSumSnd, varSumFst, List.map_map, List.length_map]
  rfl

/-- A defined diagonal entry of the correlation matrix has value 1. -/
theorem corrEntry_self (t : Table) (f : String) {p : ℚ × ℚ}
    (h : corrEntry t f f = some p) : corrVal p = 1 := by
  simp only [corrEntry] at h
  rw [pairObs_self t f] at h
  set vals := t.rows.filterMap (fun r => (getCell r f).toNum) with hvals
  set v := varSumFst (vals.map (fun a => (a, a))) with hv
  by_cases he : vals.map (fun a => (a, a)) = []
  · rw [if_pos he] at h
    cases h
  · rw [if_neg he, diag_covSum, diag_varSumSnd] at h
    by_cases hz : v * v = 0
    · rw [if_pos hz] at h
      cases h
    · rw [if_neg hz] at h
      cases h
      have hvne : v ≠ 0 := by
        intro h0
        exact hz (by rw [h0, mul_zero])
      have hv0 : (0 : ℚ) < v :=
        lt_of_le_of_ne (varSumFst_nonneg _) (Ne.symm hvne)
      unfold corrVal
      rw [show ((v * v : ℚ) : ℝ) = (v : ℝ) * (v : ℝ) by push_cast; ring]
      rw [Real.sqrt_mul_self (by exact_mod_cast hv0.le)]
      exact div_self (by exact_mod_cast hv0.ne')

/-- Every defined entry of the correlation matrix lies in [-1, 1]. -/
theorem corrEntry_bounds (t : Table) (f g : String) {p : ℚ × ℚ}
    (h : corrEntry t f g = some p) : -1 ≤ corrVal p ∧ corrVal p ≤ 1 := by
  simp only [corrEntry] at h
  set l := pairObs t f g with hl
  by_cases he : l = []
  · rw [if_pos he] at h
    cases h
  · rw [if_neg he] at h
    by_cases hv : varSumFst l * varSumSnd l = 0
    · rw [if_pos hv] at h
      cases h
    · rw [if_neg hv] at h
      cases h
      have hcs : covSum l ^ 2 ≤ varSumFst l * varSumSnd l := covSum_sq_le l
      have hd0 : (0 : ℚ) < varSumFst l * varSumSnd l :=
        lt_of_le_of_ne (mul_nonneg (varSumFst_nonneg l) (varSumSnd_nonneg l)) (Ne.symm hv)
      have hdpos : (0 : ℝ) < ((varSumFst l * varSumSnd l : ℚ) : ℝ) := by
        exact_mod_cast hd0
      have hcsR : ((covSum l : ℚ) : ℝ) ^ 2 ≤ ((varSumFst l * varSumSnd l : ℚ) : ℝ) := by
        exact_mod_cast hcs
      have hsq : corrVal (covSum l, varSumFst l * varSumSnd l) ^ 2 ≤ 1 := by
        unfold corrVal
        rw [div_pow, Real.sq_sqrt hdpos.le]
        exact (div_le_one hdpos).mpr hcsR
      exact abs_le.mp ((sq_le_one_iff_abs_le_one _).mp hsq)

/-- C2 counterexample: on a table whose `danceability` column has zero
variance and whose `energy` column varies, the heatmap is produced (two
features are available) but the danceability diagonal entry of the
matrix is the NaN marker `none`, not the value 1.0, refuting the
"diagonal entries exactly 1.0 including zero-variance features" part of
the claim. -/
theorem C2_counterexample :
    2 ≤ (availIn audioFeatures9 tZ).length ∧
    "danceability" ∈ availIn audioFeatures9 tZ ∧
    ("danceability", "danceability", (none : Option (ℚ × ℚ))) ∈ corrMatrixData tZ ∧
    corrEntry tZ "danceability" "danceability" = none := by
  have hl : pairObs tZ "danceability" "danceability" =
      [((1 : ℚ), (1 : ℚ)), (1, 1)] := rfl
  have hvar : varSumFst [((1 : ℚ), (1 : ℚ)), (1, 1)] = 0 := by
    norm_num [varSumFst]
  have hcond : varSumFst [((1 : ℚ), (1 : ℚ)), (1, 1)] *
      varSumSnd [((1 : ℚ), (1 : ℚ)), (1, 1)] = 0 := by
    rw [hvar, zero_mul]
  have hdd : corrEntry tZ "danceability" "danceability" = none := by
    rw [corrEntry, hl, if_neg (List.cons_ne_nil _ _), if_pos hcond]
  have hmat : corrMatrixData tZ =
      [("danceability", "danceability", corrEntry tZ "danceability" "danceability"),
       ("danceability", "energy", corrEntry tZ "danceability" "energy"),
       ("energy", "danceability", corrEntry tZ "energy" "danceability"),
       ("energy", "energy", corrEntry tZ "energy" "energy")] := rfl
  refine ⟨by decide, by decide, ?_, hdd⟩
  rw [hmat, hdd]
  exact List.mem_cons_self _ _

/-- C2 amended: with at least 2 available features the heatmap is
produced; the matrix is symmetric; every defined (non-NaN) diagonal
entry equals exactly 1 and every defined entry lies in [-1, 1]; entries
whose feature pair has no pairwise-complete observation or zero
variance are the NaN marker instead. -/
theorem C2_correlation_matrix (t : Table)
    (h2 : 2 ≤ (availIn audioFeatures9 t).length) :
    (∀ d, createCorrelationHeatmap t d =
      some { divId := d, payload := Payload.heatmap (corrMatrixData t) }) ∧
    (∀ f g, corrEntry t f g = corrEntry t g f) ∧
    (∀ f p, corrEntry t f f = some p → corrVal p = 1) ∧
    (∀ f g p, corrEntry t f g = some p → -1 ≤ corrVal p ∧ corrVal p ≤ 1) := by
  refine ⟨?_, fun f g => corrEntry_symm t f g,
    fun f p h => corrEntry_self t f h,
    fun f g p h => corrEntry_bounds t f g h⟩
  intro d
  unfold createCorrelationHeatmap
  rw [if_neg (by omega)]

/-- Witness for C2's amended statement at a table with two non-constant
features. -/
theorem C2_correlation_matrix_witness :
    2 ≤ (availIn audioFeatures9 tCorr).length ∧
    createCorrelationHeatmap tCorr "d" =
      some { divId := "d", payload := Payload.heatmap (corrMatrixData tCorr) } ∧
    corrEntry tCorr "danceability" "energy" = corrEntry tCorr "energy" "danceability" ∧
    corrVal (1/2, 1/4) = 1 ∧
    (-1 ≤ corrVal (1/2, 1/4) ∧ corrVal (1/2, 1/4) ≤ 1) := by
  have hv1 : varSumFst [((0 : ℚ), (0 : ℚ)), (1, 1)] = 1/2 := by
    norm_num [varSumFst]
  have hv2 : varSumSnd [((0 : ℚ), (0 : ℚ)), (1, 1)] = 1/2 := by
    norm_num [varSumSnd]
  have hcv : covSum [((0 : ℚ), (0 : ℚ)), (1, 1)] = 1/2 := by
    norm_num [covSum]
  have hee : corrEntry tCorr "energy" "energy" = some (1/2, 1/4) := by
    have hp : pairObs tCorr "energy" "energy" = [((0 : ℚ), (0 : ℚ)), (1, 1)] := rfl
    rw [corrEntry, hp, hv1, hv2, hcv, if_neg (List.cons_ne_nil _ _),
      if_neg (by norm_num)]
    norm_num
  have hde : corrEntry tCorr "danceability" "energy" = some (1/2, 1/4) := by
    have hp : pairObs tCorr "danceability" "energy" = [((0 : ℚ), (0 : ℚ)), (1, 1)] := rfl
    rw [corrEntry, hp, hv1, hv2, hcv, if_neg (List.cons_ne_nil _ _),
      if_neg (by norm_num)]
    norm_num
  exact ⟨by decide,
    (C2_correlation_matrix tCorr (by decide)).1 "d",
    (C2_correlation_matrix tCorr (by decide)).2.1 "danceability" "energy",
    (C2_correlation_matrix tCorr (by decide)).2.2.1 "energy" (1/2, 1/4) hee,
    (C2_correlation_matrix tCorr (by decide)).2.2.2 "danceability" "energy" (1/2, 1/4) hde⟩

end SpotifyOntario
